import Mathlib

/-!
Shallow embedding of `src/main.go` (package `main` of `slaskis/cloud-echo`).

The program is a voice pipeline: it spawns a `sox` subprocess capturing
microphone audio, streams the audio to a streaming speech-recognition
backend, synthesizes every recognized transcript through a text-to-speech
backend (`say`), and writes each synthesized utterance to a file under
`./tmp/`.  Six goroutines cooperate over two unbuffered channels
(`texts : chan string` and `streams : chan io.ReadCloser`).

The embedding below translates, function by function and loop by loop:
 * the codec-name resolution (`main.go` lines 67-70);
 * the sequential startup of `main` up to `cmd.Start()` (lines 43-104);
 * the send loop piping subprocess output to the backend (lines 117-146)
   together with the initial configuration send (lines 72-86);
 * the receive loop producing transcripts (lines 148-171);
 * the transcript-to-speech bridge goroutine (lines 182-193) and `say`
   (lines 216-231);
 * the file sink goroutine (lines 195-211), including the Go semantics of
   `defer` inside the loop (deferred closes run at goroutine exit, LIFO)
   and of `log.Fatal` (process exit, deferred calls skipped);
 * a labelled transition system for the whole six-worker pipeline, with
   the two unbuffered channels modelled as rendezvous steps, used for the
   shutdown-ordering and deadlock claims.

External effects (network results, subprocess reads, `os.Create` results,
`time.Now`) are supplied as explicit environment data.
-/

namespace CloudEcho

/-! ### Codec resolution (main.go lines 67-70)

`speechpb.RecognitionConfig_AudioEncoding_value` is the generated
name-to-value map of the `v1beta1` `AudioEncoding` enum; the program looks
up `strings.ToUpper(opts.codec)` in it. -/

/-- The generated enum map `RecognitionConfig_AudioEncoding_value`. -/
def audioEncodingValue : List (String × Int) :=
  [("ENCODING_UNSPECIFIED", 0), ("LINEAR16", 1), ("FLAC", 2),
   ("MULAW", 3), ("AMR", 4), ("AMR_WB", 5)]

/-- Map lookup `RecognitionConfig_AudioEncoding_value[name]`. -/
def lookupEncoding (name : String) : Option Int :=
  (audioEncodingValue.find? (fun p => p.1 = name)).map Prod.snd

/-- `strings.ToUpper`, character by character. -/
def toUpperStr (s : String) : String := String.mk (s.data.map Char.toUpper)

/-- `RecognitionConfig_AudioEncoding_value[strings.ToUpper(opts.codec)]`:
the codec flag is upper-cased before the map lookup (line 67). -/
def resolveCodec (codec : String) : Option Int :=
  lookupEncoding (toUpperStr codec)

/-! ### Startup sequence of `main` (lines 43-104)

`main` proceeds sequentially: `DescribeVoices`, the unguarded index
`*resp.Voices[0].Id`, `speech.NewClient`, `client.StreamingRecognize`,
the codec lookup, the configuration `Send`, `cmd.StdoutPipe`, `cmd.Start`.
Each fallible step's result is environment data.  The trace of externally
visible startup events and the final outcome are computed. -/

/-- Results of the fallible calls made during startup, in program order. -/
structure StartEnv where
  /-- `svc.DescribeVoices`: `none` models an error, `some vs` the ids of
  the returned voices. -/
  voicesResult : Option (List String)
  /-- does `speech.NewClient` succeed? -/
  newClientOk : Bool
  /-- does `client.StreamingRecognize` succeed? -/
  streamingRecognizeOk : Bool
  /-- the `-codec` flag value. -/
  codec : String
  /-- does the configuration `stream.Send` succeed? -/
  configSendOk : Bool
  /-- does `cmd.StdoutPipe` succeed? -/
  stdoutPipeOk : Bool
  /-- does `cmd.Start` succeed? -/
  cmdStartOk : Bool

/-- Externally visible startup events, in the order `main` performs them. -/
inductive StartEvent
  | describeVoices
  | pickVoice (id : String)
  | newClient
  | streamingRecognize
  | codecResolved (v : Int)
  | sendConfig
  | cmdStart
  deriving DecidableEq, Repr

/-- How the startup prefix of `main` ends. -/
inductive Outcome
  /-- `log.Fatal*`: diagnostic message, process exits non-zero. -/
  | fatalLog (msg : String)
  /-- a Go runtime panic (index out of range on `resp.Voices[0]`). -/
  | panicked
  /-- startup completed; the goroutines run with this voice and encoding. -/
  | running (voice : String) (enc : Int)
  deriving DecidableEq, Repr

/-- The startup prefix of `main` (lines 43-104): the event trace performed
and the outcome.  Follows the source order exactly: the voice lookup and
the unguarded `resp.Voices[0]` come first, then client and stream
creation, then the codec check, the config send, pipe and start. -/
def startup (env : StartEnv) : List StartEvent × Outcome :=
  match env.voicesResult with
  | none => ([.describeVoices], .fatalLog "Failed to get voices")
  | some voices =>
    match voices.head? with
    | none => ([.describeVoices], .panicked)
    | some voice =>
      if !env.newClientOk then
        ([.describeVoices, .pickVoice voice], .fatalLog "Failed to create client")
      else if !env.streamingRecognizeOk then
        ([.describeVoices, .pickVoice voice, .newClient], .fatalLog "stream")
      else
        match resolveCodec env.codec with
        | none =>
          ([.describeVoices, .pickVoice voice, .newClient, .streamingRecognize],
           .fatalLog "Invalid codec")
        | some enc =>
          if !env.configSendOk then
            ([.describeVoices, .pickVoice voice, .newClient, .streamingRecognize,
              .codecResolved enc], .fatalLog "config send")
          else if !env.stdoutPipeOk then
            ([.describeVoices, .pickVoice voice, .newClient, .streamingRecognize,
              .codecResolved enc, .sendConfig], .fatalLog "pipe")
          else if !env.cmdStartOk then
            ([.describeVoices, .pickVoice voice, .newClient, .streamingRecognize,
              .codecResolved enc, .sendConfig], .fatalLog "start")
          else
            ([.describeVoices, .pickVoice voice, .newClient, .streamingRecognize,
              .codecResolved enc, .sendConfig, .cmdStart], .running voice enc)

/-! ### Configuration send and the send loop (lines 72-86 and 117-146)

The wire trace of client messages on the recognition stream: `main` sends
one `StreamingConfig` message (fatal on error), then the send-loop
goroutine reads the subprocess output in a loop: `io.EOF` ends the loop
with `CloseSend`; other read errors are logged and skipped (`continue`);
each successful read is forwarded as an `AudioContent` message (send
errors are logged and the loop continues). -/

/-- One iteration's result of `out.Read` in the send loop: a chunk of
bytes, or a non-EOF read error (logged, skipped).  EOF is the end of the
list. -/
inductive ReadEvt
  | chunk (data : List Nat)
  | readErr
  deriving DecidableEq, Repr

/-- Client messages of the streaming-recognition protocol. -/
inductive SentMsg
  | configMsg (enc : Int) (rate : Int) (lang : String)
  | audioMsg (data : List Nat)
  | closeSendMsg
  deriving DecidableEq, Repr

/-- The recognition config of the single `StreamingConfig` message. -/
structure Cfg where
  enc : Int
  rate : Int
  lang : String

/-- The send loop (lines 117-146): forward each chunk, skip read errors,
`CloseSend` on EOF. -/
def sendLoop : List ReadEvt → List SentMsg
  | [] => [.closeSendMsg]
  | .readErr :: rest => sendLoop rest
  | .chunk d :: rest => .audioMsg d :: sendLoop rest

/-- The full wire trace of client messages, and whether `main` died
fatally at the configuration send (lines 72-86): on config-send failure
`log.Fatal` fires before any goroutine starts, so nothing else is sent. -/
def wireTrace (cfg : Cfg) (configOk : Bool) (reads : List ReadEvt) :
    List SentMsg × Bool :=
  if configOk then (.configMsg cfg.enc cfg.rate cfg.lang :: sendLoop reads, false)
  else ([], true)

/-- Does a wire message carry the streaming configuration? -/
def isConfigMsg : SentMsg → Bool
  | .configMsg _ _ _ => true
  | _ => false

/-! ### Receive loop (lines 148-171)

`stream.Recv` yields responses until `io.EOF`; a receive error or a
response carrying `resp.Error` is `log.Fatalf`.  Each response holds a
list of results, each with a list of alternatives; every alternative's
transcript is sent on `texts`, in nesting order.  On EOF the loop closes
`texts`. -/

/-- One `stream.Recv` result: a response (possibly carrying a backend
error) whose results are lists of alternative transcripts, or a non-EOF
receive error.  EOF is the end of the list. -/
inductive RecvEvt
  | resp (hasError : Bool) (results : List (List String))
  | recvErr
  deriving DecidableEq, Repr

/-- The receive loop: the transcripts sent on `texts`, in order, and
whether the loop died in `log.Fatalf` (receive error or `resp.Error`)
instead of reaching EOF and closing `texts`. -/
def recvLoop : List RecvEvt → List String × Bool
  | [] => ([], false)
  | .recvErr :: _ => ([], true)
  | .resp true _ :: _ => ([], true)
  | .resp false results :: rest =>
    (results.flatten ++ (recvLoop rest).1, (recvLoop rest).2)

/-! ### Bridge goroutine and `say` (lines 182-193 and 216-231) -/

/-- `say`'s successful result: `result.AudioStream` plus the implicit
association to the transcript that produced it. -/
structure AudioStream where
  source : String
  bytes : List Nat
  deriving DecidableEq, Repr

/-- `say(svc, voice, text)` (lines 216-231): `svc.SynthesizeSpeech` either
fails or returns the audio stream.  The backend's behaviour is the
environment function `synth`. -/
def say (synth : String → Option (List Nat)) (text : String) :
    Option AudioStream :=
  (synth text).map (fun bs => ⟨text, bs⟩)

/-- The bridge goroutine's loop body (lines 185-191): `for text := range
texts`, call `say`; on error `break` (the remaining transcripts are never
read); on success forward the stream.  The output list is what is sent on
`streams` before `close(streams)`. -/
def bridge (sayF : String → Option AudioStream) : List String → List AudioStream
  | [] => []
  | t :: ts =>
    match sayF t with
    | none => []
    | some s => s :: bridge sayF ts

/-! ### Sink goroutine (lines 195-211)

For each stream received on `streams`: derive the file name from
`time.Now().Format(time.UnixDate)` (one-second resolution), `os.Create`
it — on error `log.Fatal` (which calls `os.Exit(1)`, so the loop's
`break` is dead code and the deferred closes never run) — `defer
file.Close()`, `io.Copy` (its error is assigned but never checked),
`defer stream.Close()`, and log "wrote audio".  Both `defer`s are inside
the loop, so in Go they all run only when the goroutine function returns,
in LIFO order. -/

/-- The rendering of `time.Now().Format(time.UnixDate)`: `time.UnixDate`
has one-second resolution, so the rendered string is a function of the
current second only (injective on seconds, constant within a second).
The second count stands in for the full date text. -/
def unixDate (sec : Nat) : String := toString sec

/-- `name := "./tmp/" + now + ".mp3"` (line 200). -/
def fileName (sec : Nat) : String := "./tmp/" ++ unixDate sec ++ ".mp3"

/-- One sink iteration's environment joined with its input: the stream
received from `streams`, the current second at `time.Now()`, whether
`os.Create` succeeds, and whether `io.Copy` succeeds (the code ignores
its error either way). -/
structure SinkStep where
  stream : AudioStream
  nowSec : Nat
  createOk : Bool
  copyOk : Bool
  deriving DecidableEq, Repr

/-- Observable events of the sink goroutine, in order. -/
inductive SinkEvent
  | created (name : String)
  | copyDone (name : String) (ok : Bool)
  | logWrote (name : String) (source : String)
  /-- `log.Fatal(err)` on `os.Create` failure: process exit, no deferred
  call runs, nothing further happens. -/
  | fatalExit
  | closeFile (name : String)
  | closeStream (source : String)
  deriving DecidableEq, Repr

/-- The sink loop with the stack of deferred closes accumulated so far
(innermost deferred call first, per Go's LIFO order).  When `streams` is
closed and drained the loop ends and the deferred closes run. -/
def sinkLoop : List SinkStep → List SinkEvent → List SinkEvent
  | [], deferred => deferred
  | it :: rest, deferred =>
    let nm := fileName it.nowSec
    if it.createOk then
      .created nm :: .copyDone nm it.copyOk :: .logWrote nm it.stream.source ::
        sinkLoop rest (.closeStream it.stream.source :: .closeFile nm :: deferred)
    else
      [.fatalExit]

/-- The sink goroutine's full event trace. -/
def sinkRun (steps : List SinkStep) : List SinkEvent := sinkLoop steps []

/-- The per-iteration events of a successful sink iteration (create,
copy with its ignored result, "wrote audio" log). -/
def iterEvents (s : SinkStep) : List SinkEvent :=
  [.created (fileName s.nowSec), .copyDone (fileName s.nowSec) s.copyOk,
   .logWrote (fileName s.nowSec) s.stream.source]

/-- The deferred closes an iteration registers, in the order they run at
goroutine exit (`stream.Close` was deferred last, so it runs first). -/
def deferEvents (s : SinkStep) : List SinkEvent :=
  [.closeStream s.stream.source, .closeFile (fileName s.nowSec)]

/-- Per-iteration events of a list of successful iterations, in order. -/
def iterEventsAll : List SinkStep → List SinkEvent
  | [] => []
  | s :: rest => iterEvents s ++ iterEventsAll rest

/-- Deferred closes of a list of iterations, in the LIFO order they run
at goroutine exit (last iteration's closes first). -/
def deferEventsAll : List SinkStep → List SinkEvent
  | [] => []
  | s :: rest => deferEventsAll rest ++ deferEvents s

/-- The `os.Create` names appearing in a sink trace, in order. -/
def createdNames (evts : List SinkEvent) : List String :=
  evts.filterMap (fun e => match e with | .created n => some n | _ => none)

/-- The sources of the streams the sink finished writing (reached the
"wrote audio" log), in order. -/
def writtenSources (evts : List SinkEvent) : List String :=
  evts.filterMap (fun e => match e with | .logWrote _ src => some src | _ => none)

/-! ### The six-worker pipeline as a labelled transition system

Workers: (a) the stop-signal listener (lines 106-115), (b) the send loop
(117-146), (c) the receive loop (148-171), (d) the `cmd.Wait` waiter
(173-180), (e) the bridge (182-193), (f) the sink (195-211).  The two
channels `texts` and `streams` are unbuffered, so a send is a rendezvous
that can only fire jointly with its receiver; the `lDeliver` label fuses
the receive-loop send on `texts` with the bridge's receipt, `say` call
and (on success) the rendezvous with the sink on `streams` and the
sink's `os.Create`+write.  `log.Fatal*` anywhere is modelled by the
`fatal` flag, which freezes the system (`os.Exit` kills every
goroutine).  Every `log.Fatal*` site of the goroutines has a knob: the
stop listener's `Signal` error (line 113), the send loop's `CloseSend`
error (line 128), the receive loop's `stream.Recv` error / `resp.Error`
(lines 158-162, `RecvStep.recvFatal`), the waiter's `cmd.Wait` error
(line 178), and the sink's `os.Create` failure (lines 201-204,
`createOk`). -/

/-- One receive-loop event the backend produces: either a response
delivering a transcript, or the fatal case — a `stream.Recv` error or a
response carrying `resp.Error`, both of which the receive loop turns
into `log.Fatalf` (lines 158-162). -/
inductive RecvStep
  | utter (t : String)
  | recvFatal
  deriving DecidableEq, Repr

/-- Environment of a pipeline run. -/
structure Env2 where
  /-- the subprocess reads the send loop will perform before EOF. -/
  reads : List ReadEvt
  /-- the receive events the backend produces (in order) before its EOF:
  transcripts, or a fatal receive error / `resp.Error`. -/
  recvs : List RecvStep
  /-- does synthesis succeed for a given transcript? -/
  synthOk : String → Bool
  /-- does the sink's `os.Create` succeed for this utterance's file? -/
  createOk : String → Bool
  /-- does `cmd.Wait` return an error? -/
  waitErr : Bool
  /-- does reading a line from stdin ever return (user presses Enter)? -/
  stdinHasLine : Bool
  /-- does `cmd.Process.Signal(os.Interrupt)` fail (`log.Fatal`)? -/
  signalErr : Bool
  /-- does `stream.CloseSend()` fail (`log.Fatalf`)? -/
  closeSendErr : Bool

/-- Global state of the six workers, the channels' closure flags, and
what is still to come from the environment. -/
structure SysState where
  /-- subprocess reads still pending before EOF. -/
  reads : List ReadEvt
  /-- send loop returned (after `CloseSend`). -/
  sendDone : Bool
  /-- stop-signal goroutine returned. -/
  stopDone : Bool
  /-- the sox process has exited. -/
  procExited : Bool
  /-- the `cmd.Wait` goroutine returned. -/
  waiterDone : Bool
  /-- some goroutine called `log.Fatal*` (`os.Exit`). -/
  fatal : Bool
  /-- receive events the backend still has to produce. -/
  pending : List RecvStep
  /-- receive loop returned (saw backend EOF). -/
  recvDone : Bool
  /-- `texts` has been closed. -/
  textsClosed : Bool
  /-- bridge goroutine returned. -/
  bridgeDone : Bool
  /-- `streams` has been closed. -/
  streamsClosed : Bool
  /-- sink goroutine returned. -/
  sinkDone : Bool
  /-- transcripts whose audio the sink has written, in order. -/
  written : List String
  deriving DecidableEq, Repr

/-- The initial state: all workers running, nothing closed. -/
def initState (env : Env2) : SysState :=
  { reads := env.reads, sendDone := false, stopDone := false,
    procExited := false, waiterDone := false, fatal := false,
    pending := env.recvs, recvDone := false, textsClosed := false,
    bridgeDone := false, streamsClosed := false, sinkDone := false,
    written := [] }

/-- Labels of the atomic steps of the pipeline. -/
inductive Label
  | lStop | lSend | lSendEOF | lProcExit | lWaiter
  | lDeliver | lRecvErr | lRecvEOF | lBridgeClose | lSinkExit
  deriving DecidableEq, Repr

/-- All labels. -/
def allLabels : List Label :=
  [.lStop, .lSend, .lSendEOF, .lProcExit, .lWaiter,
   .lDeliver, .lRecvErr, .lRecvEOF, .lBridgeClose, .lSinkExit]

/-- One atomic step of the pipeline, if the label is enabled.  A `fatal`
state is frozen.  `lDeliver` is the rendezvous on `texts` fused with the
bridge body and the sink's write: on synthesis failure the bridge breaks
and closes `streams` (lines 187-188 and 192); on success the stream
reaches the sink, whose `os.Create` either succeeds (file written) or
hits `log.Fatal` (lines 201-204).  `lRecvErr` is the receive loop's own
`log.Fatalf` on a `stream.Recv` error or `resp.Error` (lines 158-162);
it needs no rendezvous.  `lRecvEOF` requires `sendDone` because the
backend only ends its result stream after the client's `CloseSend`. -/
def stepFn (env : Env2) (l : Label) (s : SysState) : Option SysState :=
  if s.fatal then none else
  match l with
  | .lStop =>
    if env.stdinHasLine && !s.stopDone then
      if env.signalErr then some { s with fatal := true }
      else some { s with stopDone := true }
    else none
  | .lSend =>
    if s.sendDone then none else
    match s.reads with
    | [] => none
    | _ :: rest => some { s with reads := rest }
  | .lSendEOF =>
    if s.reads.isEmpty && !s.sendDone then
      if env.closeSendErr then some { s with fatal := true }
      else some { s with sendDone := true }
    else none
  | .lProcExit =>
    if s.reads.isEmpty && !s.procExited then some { s with procExited := true }
    else none
  | .lWaiter =>
    if s.procExited && !s.waiterDone then
      if env.waitErr then some { s with waiterDone := true, fatal := true }
      else some { s with waiterDone := true }
    else none
  | .lDeliver =>
    if s.bridgeDone then none else
    match s.pending with
    | .utter u :: rest =>
      if env.synthOk u then
        if env.createOk u then
          some { s with pending := rest, written := s.written ++ [u] }
        else
          some { s with fatal := true }
      else
        some { s with pending := rest, bridgeDone := true, streamsClosed := true }
    | _ => none
  | .lRecvErr =>
    if s.recvDone then none else
    match s.pending with
    | .recvFatal :: _ => some { s with fatal := true }
    | _ => none
  | .lRecvEOF =>
    if s.pending.isEmpty && s.sendDone && !s.recvDone then
      some { s with recvDone := true, textsClosed := true }
    else none
  | .lBridgeClose =>
    if s.textsClosed && !s.bridgeDone then
      some { s with bridgeDone := true, streamsClosed := true }
    else none
  | .lSinkExit =>
    if s.streamsClosed && !s.sinkDone then some { s with sinkDone := true }
    else none

/-- The step relation: some label fires. -/
def Step (env : Env2) (s s' : SysState) : Prop :=
  ∃ l, stepFn env l s = some s'

/-- States reachable from the initial state. -/
def Reach (env : Env2) (s : SysState) : Prop :=
  Relation.ReflTransGen (Step env) (initState env) s

/-- All six workers have returned and nobody called `log.Fatal*`: the
state in which `wg.Wait()` returns and `main` exits cleanly. -/
def isTerminal (s : SysState) : Bool :=
  s.stopDone && s.sendDone && s.waiterDone && s.recvDone &&
    s.bridgeDone && s.sinkDone && !s.fatal

/-- No label is enabled in this state. -/
def noStepPossible (env : Env2) (s : SysState) : Bool :=
  allLabels.all (fun l => (stepFn env l s).isNone)

/-- A strictly decreasing rank: every step consumes an environment item
or flips a worker flag. -/
def rank (s : SysState) : Nat :=
  s.reads.length + s.pending.length +
    (cond s.stopDone 0 1) + (cond s.sendDone 0 1) + (cond s.procExited 0 1) +
    (cond s.waiterDone 0 1) + (cond s.recvDone 0 1) + (cond s.bridgeDone 0 1) +
    (cond s.sinkDone 0 1) + (cond s.fatal 0 1)

/-! ### Concrete instances used to settle the claims -/

/-- A synthesis backend that fails exactly on the transcript `"a"`. -/
def synthBad : String → Option (List Nat) :=
  fun t => if t = "a" then none else some [7]

/-- A run environment: audio already at EOF, the backend will deliver the
transcripts `"a"` then `"b"` and no receive error, synthesis fails on
`"a"`, creates would succeed, the user pressed Enter, and no
shutdown-path call errors. -/
def envDeadlock : Env2 :=
  { reads := [], recvs := [.utter "a", .utter "b"],
    synthOk := fun t => !(t == "a"), createOk := fun _ => true,
    waitErr := false, stdinHasLine := true, signalErr := false,
    closeSendErr := false }

/-- The stuck state `envDeadlock` reaches: the bridge broke on `"a"` and
returned, every other worker except the receive loop returned, and the
receive loop is blocked forever on `texts <- "b"` (no receiver exists). -/
def sDeadlock : SysState :=
  { reads := [], sendDone := true, stopDone := true, procExited := true,
    waiterDone := true, fatal := false, pending := [.utter "b"],
    recvDone := false, textsClosed := false, bridgeDone := true,
    streamsClosed := true, sinkDone := true, written := [] }

/-- A run environment in which `cmd.Wait` returns an error (as it does for
`sox` killed by the interrupt signal) and everything else is benign. -/
def envWaitErr : Env2 :=
  { reads := [], recvs := [], synthOk := fun _ => true,
    createOk := fun _ => true, waitErr := true, stdinHasLine := true,
    signalErr := false, closeSendErr := false }

/-- The state `envWaitErr` reaches right after the intentional stop
signal was delivered (`stopDone`), the process exited, and the waiter
goroutine hit `log.Fatalf`: the process is aborted mid-shutdown. -/
def sAborted : SysState :=
  { reads := [], sendDone := false, stopDone := true, procExited := true,
    waiterDone := true, fatal := true, pending := [], recvDone := false,
    textsClosed := false, bridgeDone := false, streamsClosed := false,
    sinkDone := false, written := [] }

/-- A receive event of a benign run: not the fatal case, and its
transcript both synthesizes and has its file created successfully. -/
def goodRecv (env : Env2) (e : RecvStep) : Bool :=
  match e with
  | .recvFatal => false
  | .utter t => env.synthOk t && env.createOk t

/-- A benign run environment: the stop signal is delivered and succeeds,
`CloseSend` and `cmd.Wait` succeed, the backend produces no receive
error or in-band `resp.Error`, and every synthesis call and every
`os.Create` succeeds. -/
def GoodEnv (env : Env2) : Prop :=
  env.stdinHasLine = true ∧ env.waitErr = false ∧ env.signalErr = false ∧
    env.closeSendErr = false ∧ ∀ e ∈ env.recvs, goodRecv env e = true

/-- The inductive invariant of benign runs: no `log.Fatal*` fired, the
send loop only returns at audio EOF, `texts` is closed only after the
receive loop saw backend EOF (which itself needs `CloseSend` first),
`streams` is closed exactly when the bridge returned, which needs `texts`
closed first, the sink only returns after `streams` closed, and every
still-pending receive event is benign. -/
def Inv (env : Env2) (s : SysState) : Prop :=
  s.fatal = false ∧
  (s.sendDone = true → s.reads = []) ∧
  (s.textsClosed = true → s.pending = [] ∧ s.recvDone = true ∧ s.sendDone = true) ∧
  (s.recvDone = true → s.textsClosed = true) ∧
  s.streamsClosed = s.bridgeDone ∧
  (s.bridgeDone = true → s.textsClosed = true) ∧
  (s.sinkDone = true → s.streamsClosed = true) ∧
  (∀ e ∈ s.pending, goodRecv env e = true)

/-- A fully benign run environment with one transcript. -/
def envBenign : Env2 :=
  { reads := [], recvs := [.utter "hello"], synthOk := fun _ => true,
    createOk := fun _ => true, waitErr := false, stdinHasLine := true,
    signalErr := false, closeSendErr := false }

/-- Run a list of labels from a state, failing if one is not enabled. -/
def runLabels (env : Env2) : List Label → SysState → Option SysState
  | [], s => some s
  | l :: ls, s =>
    match stepFn env l s with
    | none => none
    | some s' => runLabels env ls s'

/-- A startup environment whose codec flag names no known encoding while
everything before the codec check succeeds. -/
def envBadCodec : StartEnv :=
  { voicesResult := some ["Astrid"], newClientOk := true,
    streamingRecognizeOk := true, codec := "opus", configSendOk := true,
    stdoutPipeOk := true, cmdStartOk := true }

/-- A startup environment whose voice lookup succeeds with an empty list. -/
def envEmptyVoices : StartEnv :=
  { voicesResult := some [], newClientOk := true,
    streamingRecognizeOk := true, codec := "flac", configSendOk := true,
    stdoutPipeOk := true, cmdStartOk := true }

/-! ## Helper lemmas -/

/-- The send loop never emits a configuration message. -/
theorem sendLoop_no_config (reads : List ReadEvt) :
    (sendLoop reads).countP isConfigMsg = 0 := by
  induction reads with
  | nil => rfl
  | cons r rest ih =>
    cases r <;> simp [sendLoop, List.countP_cons, isConfigMsg, ih]

/-- The sources of the streams the bridge forwards form an
order-preserving subsequence of the transcripts it consumes. -/
theorem bridge_sources_sublist (synth : String → Option (List Nat))
    (ts : List String) :
    ((bridge (say synth) ts).map AudioStream.source).Sublist ts := by
  induction ts with
  | nil => simp [bridge]
  | cons t ts ih =>
    cases h : synth t with
    | none => simp [bridge, say, h]
    | some bs =>
      simpa [bridge, say, h] using ih.cons₂ t

/-- When every synthesis succeeds, the bridge forwards one stream per
transcript, in order. -/
theorem bridge_all_some (synth : String → Option (List Nat))
    (ts : List String) (h : ∀ t ∈ ts, (synth t).isSome = true) :
    (bridge (say synth) ts).map AudioStream.source = ts := by
  induction ts with
  | nil => rfl
  | cons t ts ih =>
    obtain ⟨bs, hbs⟩ := Option.isSome_iff_exists.mp (h t (by simp))
    simp [bridge, say, hbs, ih (fun x hx => h x (List.mem_cons_of_mem _ hx))]

/-- C1 (amended): on a synthesis failure for utterance Uk the Bridge does
NOT skip and continue — it breaks out of its loop: the utterances before
Uk are forwarded, Uk and every later utterance (U(k+1) included) are
dropped, the loop terminates and the audio-stream queue is closed.  The
failure still does not abort the process from inside the bridge. -/
theorem c1_amended (synth : String → Option (List Nat))
    (pre : List String) (t : String) (post : List String)
    (hpre : ∀ x ∈ pre, (synth x).isSome = true) (ht : synth t = none) :
    bridge (say synth) (pre ++ t :: post) = pre.filterMap (say synth) := by
  induction pre with
  | nil => simp [bridge, say, ht]
  | cons x pre ih =>
    obtain ⟨bs, hbs⟩ := Option.isSome_iff_exists.mp (hpre x (by simp))
    simp [bridge, say, hbs,
      ih (fun y hy => hpre y (List.mem_cons_of_mem _ hy))]

/-- A sink run in which every `os.Create` succeeds: the per-item events
in order, then all the deferred closes in LIFO order at goroutine exit. -/
theorem sinkLoop_all_ok (steps : List SinkStep) (acc : List SinkEvent)
    (h : ∀ s ∈ steps, s.createOk = true) :
    sinkLoop steps acc = iterEventsAll steps ++ deferEventsAll steps ++ acc := by
  induction steps generalizing acc with
  | nil => simp [sinkLoop, iterEventsAll, deferEventsAll]
  | cons s rest ih =>
    have hs : s.createOk = true := h s (by simp)
    simp [sinkLoop, hs, iterEventsAll, deferEventsAll, iterEvents, deferEvents,
      ih _ (fun x hx => h x (List.mem_cons_of_mem _ hx))]

/-- A sink run writes exactly the streams up to the first create
failure, in order. -/
theorem writtenSources_sinkLoop (steps : List SinkStep) (acc : List SinkEvent)
    (hacc : writtenSources acc = []) :
    writtenSources (sinkLoop steps acc) =
      (steps.takeWhile (fun s => s.createOk)).map (fun s => s.stream.source) := by
  induction steps generalizing acc with
  | nil => simpa [sinkLoop] using hacc
  | cons s rest ih =>
    cases hs : s.createOk with
    | true =>
      have h2 := ih (SinkEvent.closeStream s.stream.source ::
          SinkEvent.closeFile (fileName s.nowSec) :: acc)
        (by simpa [writtenSources] using hacc)
      simp only [writtenSources] at h2 ⊢
      simp [sinkLoop, hs, List.takeWhile_cons, h2]
    | false =>
      simp [sinkLoop, hs, writtenSources, List.takeWhile_cons]

/-- If a label list runs to completion, the end state is reachable from
the start state. -/
theorem reach_of_runLabels {env : Env2} :
    ∀ (ls : List Label) (s s' : SysState), runLabels env ls s = some s' →
      Relation.ReflTransGen (Step env) s s' := by
  intro ls
  induction ls with
  | nil =>
    intro s s' h
    simp only [runLabels, Option.some.injEq] at h
    exact h ▸ Relation.ReflTransGen.refl
  | cons l ls ih =>
    intro s s' h
    simp only [runLabels] at h
    cases hl : stepFn env l s with
    | none => rw [hl] at h; exact absurd h (by simp)
    | some s1 =>
      rw [hl] at h
      exact Relation.ReflTransGen.head ⟨l, hl⟩ (ih s1 s' h)

/-- A state in which no label is enabled has no successor. -/
theorem noStep_sound {env : Env2} {s : SysState}
    (h : noStepPossible env s = true) : ∀ s', ¬ Step env s s' := by
  intro s' ⟨l, hl⟩
  have := List.all_eq_true.mp h l (by cases l <;> simp [allLabels])
  rw [hl] at this
  simp at this

/-- The invariant holds initially. -/
theorem inv_init {env : Env2} (hg : GoodEnv env) : Inv env (initState env) := by
  obtain ⟨-, -, -, -, hsynth⟩ := hg
  exact ⟨rfl, by simp [initState], by simp [initState], by simp [initState],
    rfl, by simp [initState], by simp [initState], by simpa [initState] using hsynth⟩

/-- Every enabled step of a benign run preserves the invariant. -/
theorem inv_step {env : Env2} {l : Label} {s s' : SysState}
    (hg : GoodEnv env) (hi : Inv env s) (h : stepFn env l s = some s') :
    Inv env s' := by
  obtain ⟨hstdin, hwait, hsig, hclose, -⟩ := hg
  obtain ⟨hf, hsr, htc, hrd, hsb, hbt, hss, hp⟩ := hi
  have hnf : ¬ (s.fatal = true) := by simp [hf]
  cases l <;> simp only [stepFn] at h <;> rw [if_neg hnf] at h
  case lStop =>
    split at h
    · split at h
      · rename_i hcs
        simp [hsig] at hcs
      · obtain rfl := Option.some.inj h
        exact ⟨hf, hsr, htc, hrd, hsb, hbt, hss, hp⟩
    · exact absurd h (by simp)
  case lSend =>
    split at h
    · exact absurd h (by simp)
    · rename_i hsd
      split at h
      · exact absurd h (by simp)
      · rename_i r rest hr
        obtain rfl := Option.some.inj h
        refine ⟨hf, ?_, htc, hrd, hsb, hbt, hss, hp⟩
        intro hcon
        exact absurd hcon hsd
  case lSendEOF =>
    split at h
    · rename_i hc
      split at h
      · rename_i hcs
        simp [hclose] at hcs
      · obtain rfl := Option.some.inj h
        simp only [Bool.and_eq_true, List.isEmpty_iff, Bool.not_eq_true'] at hc
        exact ⟨hf, fun _ => hc.1, fun hcl => ⟨(htc hcl).1, (htc hcl).2.1, rfl⟩,
          hrd, hsb, hbt, hss, hp⟩
    · exact absurd h (by simp)
  case lProcExit =>
    split at h
    · obtain rfl := Option.some.inj h
      exact ⟨hf, hsr, htc, hrd, hsb, hbt, hss, hp⟩
    · exact absurd h (by simp)
  case lWaiter =>
    split at h
    · split at h
      · rename_i hcw
        simp [hwait] at hcw
      · obtain rfl := Option.some.inj h
        exact ⟨hf, hsr, htc, hrd, hsb, hbt, hss, hp⟩
    · exact absurd h (by simp)
  case lDeliver =>
    split at h
    · exact absurd h (by simp)
    · rename_i hbd
      split at h
      · rename_i u rest hpend
        have hgood : goodRecv env (.utter u) = true :=
          hp (.utter u) (by rw [hpend]; simp)
        simp only [goodRecv, Bool.and_eq_true] at hgood
        split at h
        · split at h
          · obtain rfl := Option.some.inj h
            refine ⟨hf, hsr, ?_, hrd, hsb, hbt, hss, ?_⟩
            · intro hc
              exact absurd (htc hc).1 (by rw [hpend]; simp)
            · intro e he
              exact hp e (by rw [hpend]; exact List.mem_cons_of_mem _ he)
          · rename_i hcre
            exact absurd hgood.2 hcre
        · rename_i hsyn
          exact absurd hgood.1 hsyn
      · exact absurd h (by simp)
  case lRecvErr =>
    split at h
    · exact absurd h (by simp)
    · split at h
      · rename_i rest hpend
        have hgood : goodRecv env .recvFatal = true :=
          hp .recvFatal (by rw [hpend]; simp)
        simp [goodRecv] at hgood
      · exact absurd h (by simp)
  case lRecvEOF =>
    split at h
    · rename_i hc
      simp only [Bool.and_eq_true, List.isEmpty_iff, Bool.not_eq_true'] at hc
      obtain ⟨⟨hc1, hc2⟩, hc3⟩ := hc
      obtain rfl := Option.some.inj h
      exact ⟨hf, hsr, fun _ => ⟨hc1, rfl, hc2⟩, fun _ => rfl, hsb,
        fun _ => rfl, hss, hp⟩
    · exact absurd h (by simp)
  case lBridgeClose =>
    split at h
    · rename_i hc
      simp only [Bool.and_eq_true, Bool.not_eq_true'] at hc
      obtain rfl := Option.some.inj h
      exact ⟨hf, hsr, htc, hrd, rfl, fun _ => hc.1, fun _ => rfl, hp⟩
    · exact absurd h (by simp)
  case lSinkExit =>
    split at h
    · rename_i hc
      simp only [Bool.and_eq_true, Bool.not_eq_true'] at hc
      obtain rfl := Option.some.inj h
      exact ⟨hf, hsr, htc, hrd, hsb, hbt, fun _ => hc.1, hp⟩
    · exact absurd h (by simp)

/-- The invariant holds in every reachable state of a benign run. -/
theorem inv_reach {env : Env2} (hg : GoodEnv env) {s : SysState}
    (h : Reach env s) : Inv env s := by
  induction h with
  | refl => exact inv_init hg
  | tail _ hstep ih =>
    obtain ⟨l, hl⟩ := hstep
    exact inv_step hg ih hl

/-- Every enabled step strictly decreases the rank: runs are finite. -/
theorem rank_decrease {env : Env2} {l : Label} {s s' : SysState}
    (h : stepFn env l s = some s') : rank s' < rank s := by
  cases l <;> simp only [stepFn] at h <;> split at h <;>
    try exact Option.noConfusion h
  case lStop =>
    rename_i hff
    have hf2 : s.fatal = false := by simpa using hff
    split at h
    · rename_i hc
      simp only [Bool.and_eq_true, Bool.not_eq_true'] at hc
      split at h <;> obtain rfl := Option.some.inj h <;>
        simp [rank, hc.2, hf2] <;> omega
    · exact Option.noConfusion h
  case lSend =>
    split at h
    · exact Option.noConfusion h
    · split at h
      · exact Option.noConfusion h
      · rename_i r rest hr
        obtain rfl := Option.some.inj h
        simp [rank, hr]
  case lSendEOF =>
    rename_i hff
    have hf2 : s.fatal = false := by simpa using hff
    split at h
    · rename_i hc
      simp only [Bool.and_eq_true, List.isEmpty_iff, Bool.not_eq_true'] at hc
      split at h <;> obtain rfl := Option.some.inj h <;>
        simp [rank, hc.2, hf2] <;> omega
    · exact Option.noConfusion h
  case lProcExit =>
    split at h
    · rename_i hc
      simp only [Bool.and_eq_true, List.isEmpty_iff, Bool.not_eq_true'] at hc
      obtain rfl := Option.some.inj h
      simp [rank, hc.2]
    · exact Option.noConfusion h
  case lWaiter =>
    rename_i hff
    have hf2 : s.fatal = false := by simpa using hff
    split at h
    · rename_i hc
      simp only [Bool.and_eq_true, Bool.not_eq_true'] at hc
      split at h <;> obtain rfl := Option.some.inj h <;>
        simp [rank, hc.2, hf2] <;> omega
    · exact Option.noConfusion h
  case lDeliver =>
    rename_i hff
    have hf2 : s.fatal = false := by simpa using hff
    split at h
    · exact Option.noConfusion h
    · rename_i hbd
      split at h
      · rename_i u rest hpend
        have hbd2 : s.bridgeDone = false := by simpa using hbd
        split at h
        · split at h <;> obtain rfl := Option.some.inj h <;>
            simp [rank, hpend, hbd2, hf2] <;> omega
        · obtain rfl := Option.some.inj h
          simp [rank, hpend, hbd2] <;> omega
      · exact Option.noConfusion h
  case lRecvErr =>
    rename_i hff
    have hf2 : s.fatal = false := by simpa using hff
    split at h
    · exact Option.noConfusion h
    · split at h
      · obtain rfl := Option.some.inj h
        simp [rank, hf2]
      · exact Option.noConfusion h
  case lRecvEOF =>
    split at h
    · rename_i hc
      simp only [Bool.and_eq_true, List.isEmpty_iff, Bool.not_eq_true'] at hc
      obtain rfl := Option.some.inj h
      simp [rank, hc.2]
    · exact Option.noConfusion h
  case lBridgeClose =>
    split at h
    · rename_i hc
      simp only [Bool.and_eq_true, Bool.not_eq_true'] at hc
      obtain rfl := Option.some.inj h
      simp [rank, hc.2]
    · exact Option.noConfusion h
  case lSinkExit =>
    split at h
    · rename_i hc
      simp only [Bool.and_eq_true, Bool.not_eq_true'] at hc
      obtain rfl := Option.some.inj h
      simp [rank, hc.2]
    · exact Option.noConfusion h

/-- Progress: a benign run is never stuck before all six workers are
done — some label is always enabled. -/
theorem progress {env : Env2} {s : SysState} (hg : GoodEnv env)
    (hi : Inv env s) (hterm : isTerminal s = false) :
    ∃ l s', stepFn env l s = some s' := by
  obtain ⟨hstdin, hwait, hsig, hclose, -⟩ := hg
  obtain ⟨hf, hsr, htc, hrd, hsb, hbt, hss, hp⟩ := hi
  cases hreads : s.reads with
  | cons r rest =>
    have hsd : s.sendDone = false := by
      cases hsd : s.sendDone with
      | false => rfl
      | true => rw [hsr hsd] at hreads; exact absurd hreads (by simp)
    exact ⟨.lSend, _, by rw [stepFn, if_neg (by simp [hf]), hsd, hreads]; rfl⟩
  | nil =>
  cases hsd : s.sendDone with
  | false =>
    exact ⟨.lSendEOF, _, by
      rw [stepFn, if_neg (by simp [hf]), hclose]
      simp [hreads, hsd]
      try rfl⟩
  | true =>
  cases hstop : s.stopDone with
  | false =>
    exact ⟨.lStop, _, by
      rw [stepFn, if_neg (by simp [hf]), hsig]
      simp [hstdin, hstop]
      try rfl⟩
  | true =>
  cases hproc : s.procExited with
  | false =>
    exact ⟨.lProcExit, _, by
      rw [stepFn, if_neg (by simp [hf])]
      simp [hreads, hproc]
      try rfl⟩
  | true =>
  cases hwd : s.waiterDone with
  | false =>
    exact ⟨.lWaiter, _, by
      rw [stepFn, if_neg (by simp [hf]), hwait]
      simp [hproc, hwd]
      try rfl⟩
  | true =>
  cases hrecv : s.recvDone with
  | false =>
    cases hpend : s.pending with
    | nil =>
      exact ⟨.lRecvEOF, _, by
        rw [stepFn, if_neg (by simp [hf])]
        simp [hpend, hsd, hrecv]
        try rfl⟩
    | cons e urest =>
      have hbd : s.bridgeDone = false := by
        cases hbd : s.bridgeDone with
        | false => rfl
        | true =>
          rw [(htc (hbt hbd)).1] at hpend
          exact absurd hpend (by simp)
      have hgood : goodRecv env e = true := hp e (by rw [hpend]; simp)
      cases e with
      | recvFatal => simp [goodRecv] at hgood
      | utter u =>
        simp only [goodRecv, Bool.and_eq_true] at hgood
        have hdel : stepFn env .lDeliver s =
            some { s with pending := urest, written := s.written ++ [u] } := by
          rw [stepFn, if_neg (by simp [hf]), hbd]
          simp only [Bool.false_eq_true, if_false, hpend]
          rw [hgood.1, hgood.2]
          rfl
        exact ⟨.lDeliver, _, hdel⟩
  | true =>
  cases hbd : s.bridgeDone with
  | false =>
    exact ⟨.lBridgeClose, _, by
      rw [stepFn, if_neg (by simp [hf])]
      simp [hrd hrecv, hbd]
      try rfl⟩
  | true =>
  cases hsink : s.sinkDone with
  | false =>
    exact ⟨.lSinkExit, _, by
      rw [stepFn, if_neg (by simp [hf])]
      simp [hsb ▸ hbd, hsink]
      try rfl⟩
  | true =>
    exact absurd hterm (by
      simp [isTerminal, hstop, hsd, hwd, hrecv, hbd, hsink, hf])

/-- `takeWhile` yields an order-preserving subsequence. -/
theorem takeWhile_sub (p : SinkStep → Bool) (l : List SinkStep) :
    (l.takeWhile p).Sublist l := by
  induction l with
  | nil => simp
  | cons a l ih =>
    rw [List.takeWhile_cons]
    split
    · exact ih.cons₂ a
    · exact List.nil_sublist _

/-- `createdNames` distributes over concatenation. -/
theorem createdNames_append (a b : List SinkEvent) :
    createdNames (a ++ b) = createdNames a ++ createdNames b := by
  simp [createdNames]

/-- The per-item sink events create exactly one file per item, named by
the item's one-second timestamp, in order. -/
theorem createdNames_iterEventsAll (steps : List SinkStep) :
    createdNames (iterEventsAll steps) =
      steps.map (fun s => fileName s.nowSec) := by
  induction steps with
  | nil => rfl
  | cons s rest ih =>
    simp only [createdNames] at ih ⊢
    simp [iterEventsAll, iterEvents, ih]

/-- The deferred closes create no files. -/
theorem createdNames_deferEventsAll (steps : List SinkStep) :
    createdNames (deferEventsAll steps) = [] := by
  induction steps with
  | nil => rfl
  | cons s rest ih =>
    simp only [createdNames] at ih ⊢
    simp [deferEventsAll, deferEvents, ih]

/-- A sink run hitting a create failure: the items before it are written,
then `log.Fatal` ends the process; later items and all deferred closes
never happen. -/
theorem sinkLoop_fail (pre : List SinkStep) (it : SinkStep)
    (post : List SinkStep) (acc : List SinkEvent)
    (hpre : ∀ s ∈ pre, s.createOk = true) (hit : it.createOk = false) :
    sinkLoop (pre ++ it :: post) acc = iterEventsAll pre ++ [.fatalExit] := by
  induction pre generalizing acc with
  | nil => simp [sinkLoop, hit, iterEventsAll]
  | cons s rest ih =>
    have hs : s.createOk = true := hpre s (by simp)
    simp [sinkLoop, hs, iterEventsAll, iterEvents,
      ih _ (fun x hx => hpre x (List.mem_cons_of_mem _ hx))]

/-! ## Claims -/

/-- C1 (counterexample): with a synthesis backend failing exactly on
`"a"`, the Bridge consuming transcripts `["a", "b"]` forwards NOTHING:
the failure on `"a"` breaks the loop and `"b"` is never synthesized even
though its synthesis would succeed — contradicting the claim that a
synthesis failure for Uk never prevents U(k+1) from being synthesized
and never terminates the Bridge loop. -/
theorem c1_counterexample :
    bridge (say synthBad) ["a", "b"] = [] ∧
      (say synthBad "b").isSome = true := by
  constructor <;> rfl

/-- C1 (witness for the amended claim). -/
theorem c1_amended_witness :
    bridge (say synthBad) (["b"] ++ "a" :: ["c"]) =
      ["b"].filterMap (say synthBad) :=
  c1_amended synthBad ["b"] "a" ["c"] (by decide) (by decide)

/-- C2 (counterexample): shutdown after end-of-input is NOT deadlock-free
for every run.  In `envDeadlock` (audio at EOF, backend delivering
`["a", "b"]`, synthesis failing on `"a"`), the pipeline reaches the state
`sDeadlock`, which is not terminal (the receive loop never returned: it
is blocked forever sending `"b"` into `texts`, whose only receiver, the
bridge, broke and exited) and from which no step is enabled: `wg.Wait()`
never returns. -/
theorem c2_counterexample :
    Reach envDeadlock sDeadlock ∧ isTerminal sDeadlock = false ∧
      noStepPossible envDeadlock sDeadlock = true := by
  refine ⟨reach_of_runLabels
    [.lStop, .lSendEOF, .lProcExit, .lWaiter, .lDeliver, .lSinkExit]
    _ _ (by decide), by decide, by decide⟩

/-- C2 (amended): in every run in which the stop signal is delivered and
succeeds, `CloseSend` and `cmd.Wait` succeed, the backend produces no
receive error and no in-band `resp.Error`, and every synthesis call and
every `os.Create` succeeds, shutdown after end-of-input is ordered and
deadlock-free:
(1) every reachable non-terminal state has an enabled step, (2) every
step strictly decreases a finite rank (so every maximal run reaches the
all-workers-done state within `rank` many steps), and (3) in every
reachable state the transcript queue is closed only after the send loop
signalled end-of-audio and the backend result stream was exhausted, the
audio-stream queue is closed only with/after the bridge observed
transcript-queue closure, the sink only returns after the audio-stream
queue is closed, and no `log.Fatal` fires. -/
theorem c2_amended (env : Env2) (h1 : env.stdinHasLine = true)
    (h2 : env.waitErr = false) (h3 : env.signalErr = false)
    (h4 : env.closeSendErr = false)
    (h5 : ∀ e ∈ env.recvs, goodRecv env e = true) :
    (∀ s, Reach env s → isTerminal s = false →
      ∃ l s', stepFn env l s = some s') ∧
    (∀ l s s', stepFn env l s = some s' → rank s' < rank s) ∧
    (∀ s, Reach env s →
      (s.textsClosed = true → s.sendDone = true ∧ s.pending = []) ∧
      (s.streamsClosed = true → s.bridgeDone = true ∧ s.textsClosed = true) ∧
      (s.sinkDone = true → s.streamsClosed = true) ∧ s.fatal = false) := by
  have hg : GoodEnv env := ⟨h1, h2, h3, h4, h5⟩
  refine ⟨?_, ?_, ?_⟩
  · intro s hs hterm
    exact progress hg (inv_reach hg hs) hterm
  · intro l s s' h
    exact rank_decrease h
  · intro s hs
    obtain ⟨hf, hsr, htc, hrd, hsb, hbt, hss, hp⟩ := inv_reach hg hs
    exact ⟨fun h => ⟨(htc h).2.2, (htc h).1⟩,
      fun h => ⟨hsb.symm.trans h, hbt (hsb.symm.trans h)⟩, hss, hf⟩

/-- C2 (witness for the amended claim): in the benign environment, a step
is enabled initially and it decreases the rank. -/
theorem c2_amended_witness :
    rank { initState envBenign with stopDone := true } <
      rank (initState envBenign) :=
  (c2_amended envBenign rfl rfl rfl rfl (by decide)).2.1 .lStop
    (initState envBenign) { initState envBenign with stopDone := true }
    (by decide)

/-- C3 (counterexample): a failed `os.Create` for the first stream does
not abort only that item — the sink's `log.Fatal(err)` kills the whole
process: the trace is just the fatal exit, the second stream is never
written and no close ever runs. -/
theorem c3_counterexample :
    sinkRun [⟨⟨"u1", [1]⟩, 10, false, true⟩, ⟨⟨"u2", [2]⟩, 11, true, true⟩] =
      [.fatalExit] ∧
    writtenSources (sinkRun [⟨⟨"u1", [1]⟩, 10, false, true⟩,
      ⟨⟨"u2", [2]⟩, 11, true, true⟩]) = [] := by
  constructor <;> rfl

/-- C3 (amended): a file-create failure aborts the whole process
(`log.Fatal`): the items before it were written, everything after it —
including all deferred closes — never happens.  An `io.Copy` write
failure, by contrast, is silently ignored (its error is never checked):
the item is still logged as written and the loop continues. -/
theorem c3_amended :
    (∀ (pre : List SinkStep) (it : SinkStep) (post : List SinkStep),
      (∀ s ∈ pre, s.createOk = true) → it.createOk = false →
      sinkRun (pre ++ it :: post) = iterEventsAll pre ++ [.fatalExit]) ∧
    (∀ steps : List SinkStep, (∀ s ∈ steps, s.createOk = true) →
      sinkRun steps = iterEventsAll steps ++ deferEventsAll steps) := by
  constructor
  · intro pre it post hpre hit
    exact sinkLoop_fail pre it post [] hpre hit
  · intro steps h
    simpa using sinkLoop_all_ok steps [] h

/-- C3 (witness for the amended claim). -/
theorem c3_amended_witness :
    sinkRun ([] ++ (⟨⟨"u1", [1]⟩, 10, false, true⟩ : SinkStep) ::
        [⟨⟨"u2", [2]⟩, 11, true, true⟩]) =
      iterEventsAll [] ++ [.fatalExit] ∧
    sinkRun [(⟨⟨"u3", [3]⟩, 12, true, false⟩ : SinkStep)] =
      iterEventsAll [⟨⟨"u3", [3]⟩, 12, true, false⟩] ++
        deferEventsAll [⟨⟨"u3", [3]⟩, 12, true, false⟩] :=
  ⟨c3_amended.1 [] _ _ (by simp) rfl, c3_amended.2 _ (by decide)⟩

/-- C4 (counterexample): in a run where the intentional stop signal WAS
delivered (the stop goroutine ran, `stopDone`) and `cmd.Wait` then
returns an error (as it does when `sox` dies from the interrupt signal),
the waiter goroutine's `log.Fatalf` aborts the whole process: the
pipeline reaches `sAborted`, with the fatal flag set, shutdown
incomplete, and nothing able to run any more — the wait error is not
merely logged. -/
theorem c4_counterexample :
    Reach envWaitErr sAborted ∧ sAborted.stopDone = true ∧
      sAborted.fatal = true ∧ isTerminal sAborted = false ∧
      noStepPossible envWaitErr sAborted = true := by
  refine ⟨reach_of_runLabels [.lStop, .lProcExit, .lWaiter] _ _ (by decide),
    rfl, rfl, rfl, by decide⟩

/-- C4 (amended): when the intentional stop signal has been delivered
(`stopDone`) and `cmd.Wait` then returns an error, the waiter goroutine
calls `log.Fatalf`: the process aborts (fatal flag) and no worker can
take any further step — the error is not merely logged and it does
prevent the remaining workers from completing the orderly shutdown. -/
theorem c4_amended (env : Env2) (s : SysState) (hw : env.waitErr = true)
    (hsd : s.stopDone = true) (hf : s.fatal = false)
    (hpe : s.procExited = true) (hwd : s.waiterDone = false) :
    stepFn env .lWaiter s = some { s with waiterDone := true, fatal := true } ∧
    noStepPossible env { s with waiterDone := true, fatal := true } = true := by
  constructor
  · rw [stepFn, if_neg (by simp [hf]), hw]
    simp [hpe, hwd]
  · simp [noStepPossible, allLabels, stepFn]

/-- C4 (witness for the amended claim), at a state where the stop signal
has been delivered and the subprocess has exited. -/
theorem c4_amended_witness :
    stepFn envWaitErr .lWaiter
      { initState envWaitErr with stopDone := true, procExited := true } =
      some { initState envWaitErr with
        stopDone := true, procExited := true, waiterDone := true,
        fatal := true } :=
  (c4_amended envWaitErr
    { initState envWaitErr with stopDone := true, procExited := true }
    rfl rfl rfl rfl rfl).1

/-- C5 (counterexample): two streams written within the same one-second
interval (`time.Now` second 10 for both) get the SAME file name — the
derived names are not distinct and the second `os.Create` silently
truncates the first file. -/
theorem c5_counterexample :
    createdNames (sinkRun [⟨⟨"u1", [1]⟩, 10, true, true⟩,
        ⟨⟨"u2", [2]⟩, 10, true, true⟩]) =
      ["./tmp/10.mp3", "./tmp/10.mp3"] ∧ ("u1" : String) ≠ "u2" := by
  constructor
  · rfl
  · decide

/-- C5 (amended): each output file name is derived solely from the
one-second timestamp at write time (`time.Now().Format(time.UnixDate)`),
so names are distinct only when the write seconds differ; two utterances
completing within the same second get identical names and the later
write silently overwrites the earlier file. -/
theorem c5_amended (steps : List SinkStep)
    (h : ∀ s ∈ steps, s.createOk = true) :
    createdNames (sinkRun steps) = steps.map (fun s => fileName s.nowSec) := by
  have h1 := sinkLoop_all_ok steps [] h
  show createdNames (sinkLoop steps []) = _
  rw [h1, List.append_nil, createdNames_append, createdNames_iterEventsAll,
    createdNames_deferEventsAll, List.append_nil]

/-- C5 (witness for the amended claim). -/
theorem c5_amended_witness :
    createdNames (sinkRun [⟨⟨"u1", [1]⟩, 10, true, true⟩,
        ⟨⟨"u2", [2]⟩, 10, true, true⟩]) =
      ([⟨⟨"u1", [1]⟩, 10, true, true⟩,
        ⟨⟨"u2", [2]⟩, 10, true, true⟩] : List SinkStep).map
        (fun s => fileName s.nowSec) :=
  c5_amended [⟨⟨"u1", [1]⟩, 10, true, true⟩, ⟨⟨"u2", [2]⟩, 10, true, true⟩]
    (by decide)

/-- C6: exactly one configuration message is sent per execution, it is
the very first message on the wire (so no audio chunk precedes it and
audio is only sent after it succeeded), the send loop itself never emits
a configuration message, and if the configuration send fails the process
aborts fatally with nothing further sent. -/
theorem c6_confirmed (cfg : Cfg) (reads : List ReadEvt) :
    (wireTrace cfg true reads).1 =
      .configMsg cfg.enc cfg.rate cfg.lang :: sendLoop reads ∧
    ((wireTrace cfg true reads).1).countP isConfigMsg = 1 ∧
    (sendLoop reads).countP isConfigMsg = 0 ∧
    (wireTrace cfg false reads).1 = [] ∧
    (wireTrace cfg false reads).2 = true := by
  refine ⟨rfl, ?_, sendLoop_no_config reads, rfl, rfl⟩
  simp [wireTrace, List.countP_cons, isConfigMsg, sendLoop_no_config reads]

/-- C7: ordering is preserved end-to-end.  The receive loop enqueues
transcripts in backend order (`recvLoop`), the bridge synthesizes them
strictly sequentially and enqueues the streams in that order, and the
sink writes in arrival order: the sources of the files the sink finishes
writing form an order-preserving subsequence of the backend's utterance
order; when every synthesis call and every file create succeeds, the
write order is exactly the backend order. -/
theorem c7_confirmed (evts : List RecvEvt)
    (synth : String → Option (List Nat)) (steps : List SinkStep)
    (hsteps : steps.map (fun s => s.stream) =
      bridge (say synth) (recvLoop evts).1) :
    (writtenSources (sinkRun steps)).Sublist (recvLoop evts).1 ∧
    ((∀ t ∈ (recvLoop evts).1, (synth t).isSome = true) →
      (∀ s ∈ steps, s.createOk = true) →
      writtenSources (sinkRun steps) = (recvLoop evts).1) := by
  have hws : writtenSources (sinkRun steps) =
      (steps.takeWhile (fun s => s.createOk)).map (fun s => s.stream.source) :=
    writtenSources_sinkLoop steps [] rfl
  have hcomp : steps.map (fun s => s.stream.source) =
      (bridge (say synth) (recvLoop evts).1).map AudioStream.source := by
    rw [← hsteps, List.map_map]
    rfl
  constructor
  · rw [hws]
    refine List.Sublist.trans ?_ (bridge_sources_sublist synth (recvLoop evts).1)
    rw [← hcomp]
    exact (takeWhile_sub _ steps).map _
  · intro hsynth hcreate
    rw [hws, List.takeWhile_eq_self_iff.mpr hcreate, hcomp,
      bridge_all_some synth _ hsynth]

/-- C7 (witness). -/
theorem c7_witness :
    writtenSources (sinkRun [⟨⟨"hi", [0]⟩, 1, true, true⟩]) =
      (recvLoop [.resp false [["hi"]]]).1 :=
  (c7_confirmed [.resp false [["hi"]]] (fun _ => some [0])
    [⟨⟨"hi", [0]⟩, 1, true, true⟩] (by decide)).2 (by decide) (by decide)

/-- C8: with two successfully synthesized streams, the sink's trace shows
both `defer file.Close()` and `defer stream.Close()` accumulating: every
close runs only at sink-goroutine exit (in LIFO order), after BOTH items
were written — the first stream and file are not released before the
second item is processed, because the `defer`s sit inside the loop. -/
theorem c8_defer_trace :
    sinkRun [⟨⟨"u1", [1]⟩, 10, true, true⟩, ⟨⟨"u2", [2]⟩, 11, true, true⟩] =
      [.created "./tmp/10.mp3", .copyDone "./tmp/10.mp3" true,
       .logWrote "./tmp/10.mp3" "u1",
       .created "./tmp/11.mp3", .copyDone "./tmp/11.mp3" true,
       .logWrote "./tmp/11.mp3" "u2",
       .closeStream "u2", .closeFile "./tmp/11.mp3",
       .closeStream "u1", .closeFile "./tmp/10.mp3"] := by
  rfl

/-- C9 (counterexample): with the unknown codec flag `"opus"`, the
process does terminate fatally with "Invalid codec", but NOT before any
connection proceeds: the voice lookup, the client creation and the
`StreamingRecognize` connection have all already happened when the codec
check runs. -/
theorem c9_counterexample :
    (startup envBadCodec).2 = .fatalLog "Invalid codec" ∧
    StartEvent.newClient ∈ (startup envBadCodec).1 ∧
    StartEvent.streamingRecognize ∈ (startup envBadCodec).1 := by
  refine ⟨rfl, by decide, by decide⟩

/-- C9 (amended): the codec flag is resolved by case-insensitive name
lookup (upper-casing before the enum-map lookup, so "flac", "FLAC" and
"Flac" all resolve to FLAC = 2); an unknown codec name is fatal at
startup BEFORE the configuration message is sent and before any audio
handling — but only AFTER the voice lookup, client creation and
`StreamingRecognize` connection have run. -/
theorem c9_amended (env : StartEnv) (v : String) (vs : List String)
    (hv : env.voicesResult = some (v :: vs)) (hnc : env.newClientOk = true)
    (hsr : env.streamingRecognizeOk = true)
    (hcd : resolveCodec env.codec = none) :
    (startup env).2 = .fatalLog "Invalid codec" ∧
    (startup env).1 =
      [.describeVoices, .pickVoice v, .newClient, .streamingRecognize] ∧
    StartEvent.sendConfig ∉ (startup env).1 ∧
    StartEvent.cmdStart ∉ (startup env).1 ∧
    resolveCodec "flac" = some 2 ∧ resolveCodec "FLAC" = some 2 ∧
    resolveCodec "Flac" = some 2 := by
  have hstart : startup env =
      ([.describeVoices, .pickVoice v, .newClient, .streamingRecognize],
       .fatalLog "Invalid codec") := by
    simp [startup, hv, hnc, hsr, hcd]
  refine ⟨by rw [hstart], by rw [hstart], ?_, ?_, by decide, by decide,
    by decide⟩
  · rw [hstart]; simp
  · rw [hstart]; simp

/-- C9 (witness for the amended claim). -/
theorem c9_amended_witness :
    (startup envBadCodec).2 = .fatalLog "Invalid codec" :=
  (c9_amended envBadCodec "Astrid" [] rfl rfl rfl (by decide)).1

/-- C10: the startup panics (Go index out of range on `resp.Voices[0]`)
exactly when the voice lookup succeeds with an empty voice list — it is
a runtime panic, not a `log.Fatal` diagnostic; and whenever startup
completes into the running pipeline, the voice lookup returned a
non-empty list whose first voice is the one used. -/
theorem c10_confirmed (env : StartEnv) :
    ((startup env).2 = .panicked ↔ env.voicesResult = some []) ∧
    (∀ voice enc, (startup env).2 = .running voice enc →
      ∃ vs, env.voicesResult = some vs ∧ vs.head? = some voice) := by
  obtain ⟨vr, nc, sr, cd, cs, sp, st⟩ := env
  cases vr with
  | none =>
    refine ⟨by simp [startup], ?_⟩
    intro voice enc h
    simp [startup] at h
  | some voices =>
    cases voices with
    | nil =>
      refine ⟨by simp [startup], ?_⟩
      intro voice enc h
      simp [startup] at h
    | cons v vs =>
      constructor
      · constructor
        · intro h
          exfalso
          revert h
          simp only [startup, List.head?]
          cases nc <;> cases sr <;> cases hcd : resolveCodec cd <;>
            cases cs <;> cases sp <;> cases st <;> simp [hcd]
        · intro h
          simp at h
      · intro voice enc h
        revert h
        simp only [startup, List.head?]
        cases nc <;> cases sr <;> cases hcd : resolveCodec cd <;>
          cases cs <;> cases sp <;> cases st <;> simp [hcd] <;>
          (intros; assumption)

/-- C10 (witness): with a successful but empty voice lookup the startup
outcome is the panic. -/
theorem c10_witness :
    (startup envEmptyVoices).2 = .panicked :=
  (c10_confirmed envEmptyVoices).1.mpr rfl

end CloudEcho
